import Mathlib

/-!
# Verification of the PHC cause-list notifier core

Shallow embedding of `src/main.py` (Patna High Court cause-list WhatsApp
notifier): the date-extraction routine of `ScreenshotManager`, the bulk
dispatch loops of `WhatsAppManager` / `WhatsAppWebClient`, the daily gate
(`is_within_time_window`, `was_message_sent_today`, `mark_message_sent`),
the per-cycle orchestration `send_cause_list`, the scheduler loop
`run_scheduler` (one tick at a time), and the `--once` single-shot mode of
`main`.  External I/O (the browser, HTTP, the filesystem) is abstracted as
explicit inputs/outputs; everything else follows the Python line by line.
-/

/-! ## Calendar dates (Python `datetime.date` / midnight `datetime`) -/

/-- A calendar date, as produced by `datetime.strptime(..., '%d-%m-%Y')`. -/
structure Date where
  year : Nat
  month : Nat
  day : Nat
deriving DecidableEq, Repr

/-- Gregorian leap-year rule, as used by Python's `datetime`. -/
def isLeap (y : Nat) : Bool :=
  (y % 4 == 0 && y % 100 != 0) || y % 400 == 0

/-- Length of month `m` of year `y` (Python `calendar`/`datetime` rule). -/
def daysInMonth (y m : Nat) : Nat :=
  if m = 2 then (if isLeap y then 29 else 28)
  else if m = 4 ∨ m = 6 ∨ m = 9 ∨ m = 11 then 30
  else 31

/-- Days in year `y` strictly before month `m` (months are 1-based). -/
def daysBeforeMonth (y : Nat) : Nat → Nat
  | 0 => 0
  | 1 => 0
  | m + 1 => daysBeforeMonth y m + daysInMonth y m

/-- Proleptic-Gregorian ordinal, identical to Python's `date.toordinal`
(`0001-01-01` is ordinal 1).  Differences of ordinals are the `days` of the
corresponding `timedelta` between midnights. -/
def Date.toOrdinal (d : Date) : Nat :=
  365 * (d.year - 1) + (d.year - 1) / 4 - (d.year - 1) / 100 + (d.year - 1) / 400
    + daysBeforeMonth d.year d.month + d.day

/-- Python `date.__le__`: lexicographic on (year, month, day). -/
def Date.ble (a b : Date) : Bool :=
  if a.year = b.year then
    if a.month = b.month then decide (a.day ≤ b.day)
    else decide (a.month < b.month)
  else decide (a.year < b.year)

/-! ## Digits and decimal rendering (Python `str`/`strftime` formatting) -/

/-- Numeric value of a digit character (`ord(c) - ord('0')`). -/
def digitVal (c : Char) : Nat := c.toNat - 48

/-- Fuel-based decimal rendering helper (the fuel only guarantees
termination; `natCharsAux_irrel` shows any sufficient fuel agrees). -/
def natCharsAux : Nat → Nat → List Char
  | 0, _ => []
  | fuel + 1, n =>
    if n < 10 then [Nat.digitChar n]
    else natCharsAux fuel (n / 10) ++ [Nat.digitChar (n % 10)]

/-- Decimal rendering of a natural number, most significant digit first —
the digit sequence produced by Python's `str(n)` / `'%Y' % year`. -/
def natChars (n : Nat) : List Char := natCharsAux (n + 1) n

/-- Python `str(n)` as a Lean string. -/
def natStr (n : Nat) : String := String.mk (natChars n)

/-- Two-digit zero-padded rendering: `strftime('%d')` / `strftime('%m')`. -/
def pad2 (n : Nat) : List Char :=
  if n < 10 then ['0', Nat.digitChar n] else natChars n

/-! ## `datetime.strptime(s, '%d-%m-%Y')` and `strftime('%d-%m-%Y')` -/

/-- Split a character list on `'-'` (the literal separators of the
`'%d-%m-%Y'` format string). -/
def splitDash : List Char → List (List Char)
  | [] => [[]]
  | c :: rest =>
    if c = '-' then [] :: splitDash rest
    else
      match splitDash rest with
      | g :: gs => (c :: g) :: gs
      | [] => [[c]]

/-- All characters are decimal digits. -/
def allDigits (cs : List Char) : Bool := cs.all Char.isDigit

/-- Value of a digit string, most significant digit first. -/
def digitsToNat (cs : List Char) : Nat :=
  cs.foldl (fun a c => 10 * a + digitVal c) 0

/-- Embeds `datetime.strptime(cs, '%d-%m-%Y')`, returning `none` where Python
raises `ValueError`: the string must be `D-M-Y` with a 1–2 digit day,
1–2 digit month and 4 digit year (the `_strptime` regex
`(?P<d>\d\x7b1,2\x7d)-(?P<m>\d\x7b1,2\x7d)-(?P<Y>\d\x7b4\x7d)` matched
against the whole string), and the triple must be a real calendar date in
`datetime`'s supported range (year ≥ 1). -/
def strptimeDMY (cs : List Char) : Option Date :=
  match splitDash cs with
  | [p1, p2, p3] =>
    if allDigits p1 && (p1.length == 1 || p1.length == 2) &&
       allDigits p2 && (p2.length == 1 || p2.length == 2) &&
       allDigits p3 && p3.length == 4 then
      let day := digitsToNat p1
      let mon := digitsToNat p2
      let yr := digitsToNat p3
      if 1 ≤ yr ∧ 1 ≤ mon ∧ mon ≤ 12 ∧ 1 ≤ day ∧ day ≤ daysInMonth yr mon then
        some ⟨yr, mon, day⟩
      else none
    else none
  | _ => none

/-- Embeds `d.strftime('%d-%m-%Y')` as a character list: zero-padded day and
month, unpadded year (glibc behaviour for `%Y`). -/
def strftimeDMYChars (d : Date) : List Char :=
  pad2 d.day ++ '-' :: (pad2 d.month ++ '-' :: natChars d.year)

/-- Embeds `d.strftime('%d-%m-%Y')` as a string. -/
def strftimeDMY (d : Date) : String := String.mk (strftimeDMYChars d)

/-- Embeds `d.strftime('%Y-%m-%d')` — the format of the sent-marker file. -/
def fmtYMD (d : Date) : String :=
  String.mk (natChars d.year ++ '-' :: (pad2 d.month ++ '-' :: pad2 d.day))

/-! ## The date regexes of `_extract_date_from_page_content`

Strategy 1 uses `re.search` with the date pattern (1-2 digits, a dash or
slash, 1-2 digits, a dash or slash, 4 digits),
strategy 2 uses `re.findall` with the same core wrapped in `\b ... \b`.
We model Python's leftmost-match scan with greedy `{1,2}` quantifiers
(day length 2 tried before 1, then month 2 before 1) and ASCII word
characters for `\b`. -/

/-- A `\w` word character (ASCII letters, digits, underscore). -/
def isWordChar (c : Char) : Bool := c.isAlphanum || c = '_'

/-- The separator character class of the pattern: dash or slash. -/
def isSep (c : Char) : Bool := c = '-' || c = '/'

/-- Take exactly `n` digit characters off the front. -/
def takeDigits : Nat → List Char → Option (List Char × List Char)
  | 0, s => some ([], s)
  | _ + 1, [] => none
  | n + 1, c :: s =>
    if c.isDigit then (takeDigits n s).map (fun p => (c :: p.1, p.2)) else none

/-- After a match, a trailing `\b` holds iff the next character (the last
matched one being a digit) is absent or not a word character. -/
def tailBoundary (checkB : Bool) (s : List Char) : Bool :=
  if checkB then
    match s with
    | [] => true
    | c :: _ => !isWordChar c
  else true

/-- Try the pattern at the current position with fixed day/month digit
counts `dl`/`ml`; returns the matched token and the remaining suffix. -/
def tryCombo (dl ml : Nat) (checkB : Bool) (s : List Char) :
    Option (List Char × List Char) := do
  let (d, s1) ← takeDigits dl s
  match s1 with
  | sep1 :: s2 =>
    if isSep sep1 then
      let (m, s3) ← takeDigits ml s2
      match s3 with
      | sep2 :: s4 =>
        if isSep sep2 then
          let (y, s5) ← takeDigits 4 s4
          if tailBoundary checkB s5 then
            some (d ++ sep1 :: m ++ sep2 :: y, s5)
          else none
        else none
      | [] => none
    else none
  | [] => none

/-- One attempt of the date pattern at the current position,
with Python's greedy backtracking order for the `{1,2}` quantifiers. -/
def matchDateAt (checkB : Bool) (s : List Char) : Option (List Char × List Char) :=
  (tryCombo 2 2 checkB s).orElse fun _ =>
  (tryCombo 2 1 checkB s).orElse fun _ =>
  (tryCombo 1 2 checkB s).orElse fun _ =>
  tryCombo 1 1 checkB s

/-- Embeds `re.findall` of the boundary-delimited date pattern: scan left to
right; a match may start only at a `\b` boundary (the previous character,
if any, is not a word character), and non-overlapping matches continue
after the matched token.  `prevWord` records whether the character just
before the current position is a word character. -/
def scanDatesAux : Nat → Bool → List Char → List (List Char)
  | 0, _, _ => []
  | _ + 1, _, [] => []
  | fuel + 1, prevWord, c :: rest =>
    if prevWord then scanDatesAux fuel (isWordChar c) rest
    else
      match matchDateAt true (c :: rest) with
      | some (tok, s') => tok :: scanDatesAux fuel true s'
      | none => scanDatesAux fuel (isWordChar c) rest

/-- All `\b`-delimited date-shaped tokens of `text`, in document order. -/
def scanDates (text : List Char) : List (List Char) :=
  scanDatesAux (text.length + 1) false text

/-- Embeds `re.search` of the date pattern (no boundaries):
the leftmost date-shaped token, if any. -/
def searchDateAux : Nat → List Char → Option (List Char)
  | 0, _ => none
  | _ + 1, [] => none
  | fuel + 1, c :: rest =>
    match matchDateAt false (c :: rest) with
    | some (tok, _) => some tok
    | none => searchDateAux fuel rest

/-- First match of the un-anchored date pattern in `text`. -/
def searchDate (text : List Char) : Option (List Char) :=
  searchDateAux (text.length + 1) text

/-! ## The plausibility check `abs((d - datetime.now()).days) < 60` -/

/-- The current wall-clock instant: today's date plus the seconds already
elapsed since local midnight (`0 ≤ sec < 86400` in any real reading). -/
structure Now where
  today : Date
  sec : Nat
deriving Repr

/-- Embeds `(d - datetime.now()).days`: `d` is the parsed date at midnight, and
`timedelta.days` is the floor of the signed difference in days. -/
def timedeltaDays (d : Date) (now : Now) : Int :=
  Int.fdiv (((d.toOrdinal : Int) - (now.today.toOrdinal : Int)) * 86400 - (now.sec : Int)) 86400

/-- The sanity filter of strategy 2: `abs((d - datetime.now()).days) < 60`. -/
def plausibleNear (d : Date) (now : Now) : Bool :=
  decide ((timedeltaDays d now).natAbs < 60)

/-! ## `ScreenshotManager._extract_date_from_page_content` -/

/-- The page representation the extractor consumes: the text of the
element with id `ctl00_MainContent_lblHeader` when that element exists
(BeautifulSoup `soup.find(id=...)`), and the whole-page text
(`soup.get_text()`). -/
structure PageContent where
  headerText : Option String
  fullText : String

/-- Strategy 2 body: parse each regex candidate with `'%d-%m-%Y'`,
returning the first one that parses and passes the plausibility filter;
candidates that fail either test are skipped. -/
def firstPlausible : List (List Char) → Now → Option Date
  | [], _ => none
  | tok :: rest, now =>
    match strptimeDMY tok with
    | some d => if plausibleNear d now then some d else firstPlausible rest now
    | none => firstPlausible rest now

/-- Strategy 2 of the extractor: scan the full page text. -/
def scanStrategy (text : String) (now : Now) : Option Date :=
  firstPlausible (scanDates text.data) now

/-- Embeds `_extract_date_from_page_content`: strategy 1 searches the header
element's text and, when `strptime` succeeds, returns that date with no
plausibility check; on any strategy-1 miss (no header, no regex match, or
a `ValueError` from `strptime`) control falls through to strategy 2. -/
def extractDate (page : PageContent) (now : Now) : Option Date :=
  match page.headerText with
  | some h =>
    match searchDate h.data with
    | some tok =>
      match strptimeDMY tok with
      | some d => some d
      | none => scanStrategy page.fullText now
    | none => scanStrategy page.fullText now
  | none => scanStrategy page.fullText now

/-! ## Bulk dispatch (`send_to_multiple` of both backends)

A per-recipient send is an external effect; we model the channel as an
oracle `ch : Nat → String → String → Bool` giving the outcome of the call
made at 1-based position `idx`, for recipient `r`, with the caption string
actually passed to the per-recipient send.  Both loops attempt every
recipient in order and tally successes and failures; the web loop passes a
per-recipient debug caption, the Cloud-API loop passes the caption
unchanged. -/

/-- One dispatch-loop entry: (1-based index, recipient, caption passed to
the per-recipient send, outcome of that send). -/
abbrev SendEntry := Nat × String × String × Bool

/-- The caption actually delivered by `WhatsAppWebClient.send_to_multiple`
for the recipient at 1-based position `idx`:
`f"{caption}\n[Debug #{idx}]"`. -/
def debugCaption (caption : String) (idx : Nat) : String :=
  caption ++ "\n[Debug #" ++ natStr idx ++ "]"

/-- The recipient loop of `WhatsAppManager.send_to_multiple` (Cloud API):
`for idx, recipient in enumerate(recipient_numbers, 1)`, each iteration
calling `send_screenshot(image_path, recipient, caption=caption)`. -/
def managerSendLoop (ch : Nat → String → String → Bool) (caption : String)
    (idx : Nat) : List String → List SendEntry
  | [] => []
  | r :: rest =>
    (idx, r, caption, ch idx r caption) :: managerSendLoop ch caption (idx + 1) rest

/-- The recipient loop of `WhatsAppWebClient.send_to_multiple`: identical
iteration, but each `_core_send_image` call receives
`debug_caption = f"{caption}\n[Debug #{idx}]"`. -/
def webSendLoop (ch : Nat → String → String → Bool) (caption : String)
    (idx : Nat) : List String → List SendEntry
  | [] => []
  | r :: rest =>
    (idx, r, debugCaption caption idx, ch idx r (debugCaption caption idx))
      :: webSendLoop ch caption (idx + 1) rest

/-- The `successful_sends` / `failed_sends` counters accumulated by either
loop. -/
def tallyTrace (tr : List SendEntry) : Nat × Nat :=
  (tr.countP (fun e => e.2.2.2), tr.countP (fun e => !e.2.2.2))

/-- Embeds `WhatsAppManager.send_to_multiple`: the full trace of attempts plus
`(successful_sends, failed_sends)`. -/
def managerSendToMultiple (ch : Nat → String → String → Bool)
    (caption : String) (rs : List String) : List SendEntry × Nat × Nat :=
  let tr := managerSendLoop ch caption 1 rs
  (tr, tallyTrace tr)

/-- Embeds `WhatsAppWebClient.send_to_multiple`: the full trace of attempts plus
`(successful_sends, failed_sends)`. -/
def webSendToMultiple (ch : Nat → String → String → Bool)
    (caption : String) (rs : List String) : List SendEntry × Nat × Nat :=
  let tr := webSendLoop ch caption 1 rs
  (tr, tallyTrace tr)

/-! ## Configuration and `send_cause_list` -/

/-- The `WHATSAPP_BACKEND` switch (default `OFFICIAL`). -/
inductive Backend where
  | official
  | web
deriving DecidableEq, Repr

/-- The environment configuration consumed by `send_cause_list`:
`PHONE_NUMBER_ID`, `ACCESS_TOKEN`, `RECIPIENT_NUMBER` (comma separated)
and the backend selector. -/
structure Config where
  phoneNumberId : Option String
  accessToken : Option String
  recipientNumbersStr : Option String
  backend : Backend

/-- Python falsiness of `os.getenv(...)`: unset, or set to the empty
string (`if not PHONE_NUMBER_ID or ...`). -/
def isMissingEnv : Option String → Bool
  | none => true
  | some s => s.isEmpty

/-- All three required environment variables are present and non-empty. -/
def configOk (cfg : Config) : Bool :=
  !(isMissingEnv cfg.phoneNumberId || isMissingEnv cfg.accessToken ||
    isMissingEnv cfg.recipientNumbersStr)

/-- Embeds `[num.strip() for num in RECIPIENT_NUMBERS_STR.split(',')]`.
Python `str.strip()` on the character list: drop leading and trailing
whitespace. -/
def pyStrip (s : String) : String :=
  String.mk (((s.data.dropWhile Char.isWhitespace).reverse.dropWhile
    Char.isWhitespace).reverse)

/-- Split a character list on `','` (Python `str.split(',')`). -/
def splitComma : List Char → List (List Char)
  | [] => [[]]
  | c :: rest =>
    if c = ',' then [] :: splitComma rest
    else
      match splitComma rest with
      | g :: gs => (c :: g) :: gs
      | [] => [[c]]

/-- Parse the comma-separated recipient list. -/
def splitRecipients (s : String) : List String :=
  (splitComma s.data).map (fun cs => pyStrip (String.mk cs))

/-- The caption built by `send_cause_list`:
`f"Patna High Court Cause List\n{cause_list_date.strftime('%d-%m-%Y')}"`. -/
def causeCaption (d : Date) : String :=
  "Patna High Court Cause List\n" ++ strftimeDMY d

/-- What one run of `send_cause_list` did: whether the capture step ran
and produced a screenshot, whether that file still exists at the end of
the cycle, the delivery attempts made, the tallies, and the returned
boolean (`successful_sends > 0`, or `False` on an early return). -/
structure CycleOutcome where
  screenshotCaptured : Bool
  screenshotKept : Bool
  attempts : List SendEntry
  succCount : Nat
  failCount : Nat
  sent : Bool
deriving DecidableEq, Repr

/-- Embeds `send_cause_list()`.  The browser step `process_webpage` is an
external effect whose result is the input `capture`: `none` models the
`(None, None)` outcome (no date found — in that case no screenshot file is
retained), `some d` models a successful capture with extracted date `d`.
`today = datetime.now(IST)`.  A missing required environment variable
raises `ValueError` (the `Except.error` branch) before any capture.  When
the extracted date is not strictly after today, the screenshot is deleted
and `False` is returned with no delivery attempt; otherwise the selected
backend dispatches to every recipient, the screenshot is deleted, and
`successful_sends > 0` is returned. -/
def sendCauseList (cfg : Config) (today : Date) (capture : Option Date)
    (ch : Nat → String → String → Bool) : Except String CycleOutcome :=
  if isMissingEnv cfg.phoneNumberId || isMissingEnv cfg.accessToken ||
      isMissingEnv cfg.recipientNumbersStr then
    Except.error "[ERROR] Missing required environment variables. Please check your .env file."
  else
    let recipients := splitRecipients (cfg.recipientNumbersStr.getD "")
    match capture with
    | none => Except.ok ⟨false, false, [], 0, 0, false⟩
    | some d =>
      if Date.ble d today then
        Except.ok ⟨true, false, [], 0, 0, false⟩
      else
        let caption := causeCaption d
        let res :=
          match cfg.backend with
          | Backend.web => webSendToMultiple ch caption recipients
          | Backend.official => managerSendToMultiple ch caption recipients
        Except.ok ⟨true, false, res.1, res.2.1, res.2.2, decide (0 < res.2.1)⟩

/-! ## The daily gate and the scheduler loop -/

/-- Embeds `is_within_time_window`: current minutes-of-day within
`[start, end]` inclusive. -/
def is_within_time_window (start_hour start_minute end_hour end_minute
    hour minute : Nat) : Bool :=
  let current_minutes := hour * 60 + minute
  let start_minutes := start_hour * 60 + start_minute
  let end_minutes := end_hour * 60 + end_minute
  decide (start_minutes ≤ current_minutes) && decide (current_minutes ≤ end_minutes)

/-- Embeds `was_message_sent_today`: the marker file, when present, is read,
stripped, and compared with `datetime.now(IST).strftime('%Y-%m-%d')`. -/
def was_message_sent_today (marker : Option String) (today : Date) : Bool :=
  match marker with
  | some s => pyStrip s == fmtYMD today
  | none => false

/-- The persisted scheduler state: the contents of `cache/sent_today.txt`
(`none` when the file does not exist). -/
structure SchedState where
  marker : Option String
deriving DecidableEq, Repr

/-- The clock reading taken at the top of a scheduler tick
(`datetime.now(IST)`). -/
structure TickTime where
  today : Date
  hour : Nat
  minute : Nat

/-- Observable behaviour of one scheduler tick. -/
structure TickReport where
  cycleRan : Bool
  captureAttempted : Bool
  attempts : List SendEntry
  succCount : Nat
  failCount : Nat
  markerWritten : Bool
  errored : Bool
deriving DecidableEq, Repr

/-- The report of a tick that skipped the cycle (outside the window, or
already sent today). -/
def skipReport : TickReport := ⟨false, false, [], 0, 0, false, false⟩

/-- One iteration of the `while True` loop of `run_scheduler`: check the
20:00–23:30 window, check the sent marker, and otherwise run
`send_cause_list` inside the per-cycle `try/except` guard, writing the
marker via `mark_message_sent()` exactly when the cycle returns `True`. -/
def schedulerTick (cfg : Config) (now : TickTime) (capture : Option Date)
    (ch : Nat → String → String → Bool) (st : SchedState) :
    SchedState × TickReport :=
  if !is_within_time_window 20 0 23 30 now.hour now.minute then
    (st, skipReport)
  else if was_message_sent_today st.marker now.today then
    (st, skipReport)
  else
    match sendCauseList cfg now.today capture ch with
    | Except.error _ => (st, ⟨true, false, [], 0, 0, false, true⟩)
    | Except.ok o =>
      if o.sent then
        (⟨some (fmtYMD now.today)⟩,
          ⟨true, true, o.attempts, o.succCount, o.failCount, true, false⟩)
      else
        (st, ⟨true, true, o.attempts, o.succCount, o.failCount, false, false⟩)

/-- The environment of one tick: the clock reading plus the outcome the
external world would give to the capture and the channel calls. -/
structure TickInput where
  time : TickTime
  capture : Option Date
  ch : Nat → String → String → Bool

/-- A run of consecutive scheduler ticks. -/
def runTicks (cfg : Config) : List TickInput → SchedState →
    SchedState × List TickReport
  | [], st => (st, [])
  | inp :: rest, st =>
    let (st', r) := schedulerTick cfg inp.time inp.capture inp.ch st
    let (stf, rs) := runTicks cfg rest st'
    (stf, r :: rs)

/-- Embeds `main` with the `--once` flag: run `send_cause_list` exactly once,
with no window check, no marker check, and no call to
`mark_message_sent`; an exception (missing configuration) propagates. -/
def singleShotRun (cfg : Config) (today : Date) (capture : Option Date)
    (ch : Nat → String → String → Bool) (st : SchedState) :
    Except String (SchedState × CycleOutcome) :=
  match sendCauseList cfg today capture ch with
  | Except.error e => Except.error e
  | Except.ok o => Except.ok (st, o)

/-! ## Helper lemmas: digits, decimal rendering, split/join -/

theorem isDigit_toNat_bounds (c : Char) (h : c.isDigit = true) :
    48 ≤ c.toNat ∧ c.toNat ≤ 57 := by
  simp only [Char.isDigit, Bool.and_eq_true, decide_eq_true_eq, ge_iff_le] at h
  exact ⟨h.1, h.2⟩

theorem digitChar_digitVal (c : Char) (h : c.isDigit = true) :
    Nat.digitChar (digitVal c) = c := by
  obtain ⟨h1, h2⟩ := isDigit_toNat_bounds c h
  have hofnat := Char.ofNat_toNat c
  have hcases : c.toNat = 48 ∨ c.toNat = 49 ∨ c.toNat = 50 ∨ c.toNat = 51 ∨
      c.toNat = 52 ∨ c.toNat = 53 ∨ c.toNat = 54 ∨ c.toNat = 55 ∨
      c.toNat = 56 ∨ c.toNat = 57 := by omega
  rcases hcases with h3|h3|h3|h3|h3|h3|h3|h3|h3|h3 <;>
    (rw [← hofnat, h3]; decide)

theorem digitVal_lt (c : Char) (h : c.isDigit = true) : digitVal c < 10 := by
  obtain ⟨h1, h2⟩ := isDigit_toNat_bounds c h
  simp [digitVal]
  omega

theorem digitChar_isDigit : ∀ n < 10, (Nat.digitChar n).isDigit = true := by decide

theorem digitChar_inj_lt : ∀ m < 10, ∀ n < 10,
    Nat.digitChar m = Nat.digitChar n → m = n := by decide

theorem isDigit_not_ws (c : Char) (h : c.isDigit = true) :
    c.isWhitespace = false := by
  obtain ⟨h1, h2⟩ := isDigit_toNat_bounds c h
  rcases hws : c.isWhitespace with _ | _
  · rfl
  · exfalso
    simp only [Char.isWhitespace, Bool.or_eq_true, decide_eq_true_eq] at hws
    rcases hws with ((he | he) | he) | he <;> (subst he; simp_all)

theorem natCharsAux_irrel : ∀ f1 : Nat, ∀ f2 n : Nat, n < f1 → n < f2 →
    natCharsAux f1 n = natCharsAux f2 n := by
  intro f1
  induction f1 with
  | zero =>
    intro f2 n h1 h2
    omega
  | succ f1 ih =>
    intro f2 n h1 h2
    cases f2 with
    | zero => omega
    | succ f2 =>
      simp only [natCharsAux]
      by_cases hn : n < 10
      · rw [if_pos hn, if_pos hn]
      · rw [if_neg hn, if_neg hn]
        rw [ih f2 (n / 10) (by omega) (by omega)]

theorem natChars_lt10 (n : Nat) (h : n < 10) : natChars n = [Nat.digitChar n] := by
  unfold natChars
  simp only [natCharsAux]
  rw [if_pos h]

theorem natChars_ge10 (n : Nat) (h : ¬ n < 10) :
    natChars n = natChars (n / 10) ++ [Nat.digitChar (n % 10)] := by
  unfold natChars
  simp only [natCharsAux]
  rw [if_neg h]
  congr 1
  exact natCharsAux_irrel n (n / 10 + 1) (n / 10) (by omega) (by omega)

theorem natChars_ne_nil (n : Nat) : natChars n ≠ [] := by
  by_cases h : n < 10
  · rw [natChars_lt10 n h]; simp
  · rw [natChars_ge10 n h]; simp

theorem natChars_all_digit : ∀ n, ∀ c ∈ natChars n, c.isDigit = true := by
  intro n
  induction n using Nat.strong_induction_on with
  | _ n ih =>
    by_cases hn : n < 10
    · rw [natChars_lt10 n hn]
      intro c hc
      simp at hc
      subst hc
      exact digitChar_isDigit n hn
    · rw [natChars_ge10 n hn]
      intro c hc
      rw [List.mem_append] at hc
      rcases hc with hc | hc
      · exact ih (n / 10) (Nat.div_lt_self (by omega) (by omega)) c hc
      · simp at hc
        subst hc
        exact digitChar_isDigit _ (Nat.mod_lt _ (by omega))

theorem natChars_inj : ∀ m : Nat, ∀ n : Nat, natChars m = natChars n → m = n := by
  intro m
  induction m using Nat.strong_induction_on with
  | _ m ih =>
    intro n h
    by_cases hm : m < 10 <;> by_cases hn : n < 10
    · rw [natChars_lt10 m hm, natChars_lt10 n hn] at h
      simp at h
      exact digitChar_inj_lt m hm n hn h
    · rw [natChars_lt10 m hm, natChars_ge10 n hn] at h
      have hl := congrArg List.length h
      cases hq : natChars (n / 10) with
      | nil => exact absurd hq (natChars_ne_nil (n / 10))
      | cons a l =>
        rw [hq] at hl
        simp at hl
    · rw [natChars_ge10 m hm, natChars_lt10 n hn] at h
      have hl := congrArg List.length h
      cases hq : natChars (m / 10) with
      | nil => exact absurd hq (natChars_ne_nil (m / 10))
      | cons a l =>
        rw [hq] at hl
        simp at hl
    · rw [natChars_ge10 m hm, natChars_ge10 n hn] at h
      have h' := congrArg List.reverse h
      simp at h'
      obtain ⟨h1, h2⟩ := h'
      have e1 : m % 10 = n % 10 :=
        digitChar_inj_lt _ (Nat.mod_lt _ (by omega)) _ (Nat.mod_lt _ (by omega)) h1
      have e2 : m / 10 = n / 10 :=
        ih (m / 10) (Nat.div_lt_self (by omega) (by omega)) (n / 10) h2
      omega

theorem natChars_two (a b : Nat) (ha1 : 1 ≤ a) (ha : a < 10) (hb : b < 10) :
    natChars (10 * a + b) = [Nat.digitChar a, Nat.digitChar b] := by
  have hge : ¬ 10 * a + b < 10 := by omega
  rw [natChars_ge10 _ hge]
  have h1 : (10 * a + b) / 10 = a := by omega
  have h2 : (10 * a + b) % 10 = b := by omega
  rw [h1, h2, natChars_lt10 a ha]
  rfl

/-- The parts of splitting, joined back with dashes. -/
def joinParts : List (List Char) → List Char
  | [] => []
  | [p] => p
  | p :: ps => p ++ '-' :: joinParts ps

theorem splitDash_ne_nil : ∀ cs, splitDash cs ≠ [] := by
  intro cs
  cases cs with
  | nil => simp [splitDash]
  | cons c rest =>
    simp only [splitDash]
    by_cases h : c = '-'
    · simp [h]
    · simp only [if_neg h]
      cases hq : splitDash rest with
      | nil => simp
      | cons g gs => simp

theorem joinParts_cons_cons (p q : List Char) (ps : List (List Char)) :
    joinParts (p :: q :: ps) = p ++ '-' :: joinParts (q :: ps) := by
  rfl

theorem joinParts_splitDash : ∀ cs, joinParts (splitDash cs) = cs := by
  intro cs
  induction cs with
  | nil => rfl
  | cons c rest ih =>
    simp only [splitDash]
    by_cases h : c = '-'
    · subst h
      simp only [if_pos rfl]
      cases hq : splitDash rest with
      | nil => exact absurd hq (splitDash_ne_nil rest)
      | cons g gs =>
        rw [hq] at ih
        simp [joinParts_cons_cons, ih]
    · rw [if_neg h]
      cases hq : splitDash rest with
      | nil => exact absurd hq (splitDash_ne_nil rest)
      | cons g gs =>
        rw [hq] at ih
        cases gs with
        | nil =>
          simp only [joinParts] at ih ⊢
          rw [ih]
        | cons g2 gs2 =>
          rw [joinParts_cons_cons] at ih
          rw [joinParts_cons_cons]
          rw [List.cons_append, ih]

theorem splitDash_three (cs p1 p2 p3 : List Char)
    (h : splitDash cs = [p1, p2, p3]) :
    cs = p1 ++ '-' :: (p2 ++ '-' :: p3) := by
  have hj := joinParts_splitDash cs
  rw [h] at hj
  rw [← hj, joinParts_cons_cons, joinParts_cons_cons]
  have h3 : joinParts [p3] = p3 := rfl
  rw [h3]

theorem digitsToNat_two (a b : Char) :
    digitsToNat [a, b] = 10 * digitVal a + digitVal b := by
  simp [digitsToNat]

theorem digitsToNat_four (a b c e : Char) :
    digitsToNat [a, b, c, e] =
      1000 * digitVal a + 100 * digitVal b + 10 * digitVal c + digitVal e := by
  simp [digitsToNat]
  ring

theorem pad2_digits (a b : Char) (ha : a.isDigit = true) (hb : b.isDigit = true) :
    pad2 (digitsToNat [a, b]) = [a, b] := by
  have hva := digitVal_lt a ha
  have hvb := digitVal_lt b hb
  rw [digitsToNat_two]
  by_cases hz : digitVal a = 0
  · rw [hz]
    simp only [Nat.mul_zero, Nat.zero_add]
    rw [pad2, if_pos hvb]
    have ha0 : a = '0' := by
      have hcv := digitChar_digitVal a ha
      rw [hz] at hcv
      exact hcv.symm
    rw [digitChar_digitVal b hb, ha0]
  · rw [pad2, if_neg (by omega)]
    rw [natChars_two _ _ (by omega) hva hvb]
    rw [digitChar_digitVal a ha, digitChar_digitVal b hb]

theorem natChars_four (a b c e : Char) (ha : a.isDigit = true)
    (hb : b.isDigit = true) (hc : c.isDigit = true) (he : e.isDigit = true)
    (hlead : digitVal a ≠ 0) :
    natChars (digitsToNat [a, b, c, e]) = [a, b, c, e] := by
  have hva := digitVal_lt a ha
  have hvb := digitVal_lt b hb
  have hvc := digitVal_lt c hc
  have hve := digitVal_lt e he
  rw [digitsToNat_four]
  have hge1 : ¬ (1000 * digitVal a + 100 * digitVal b + 10 * digitVal c + digitVal e < 10) := by
    omega
  rw [natChars_ge10 _ hge1]
  have hd1 : (1000 * digitVal a + 100 * digitVal b + 10 * digitVal c + digitVal e) / 10 =
      100 * digitVal a + 10 * digitVal b + digitVal c := by omega
  have hm1 : (1000 * digitVal a + 100 * digitVal b + 10 * digitVal c + digitVal e) % 10 =
      digitVal e := by omega
  rw [hd1, hm1]
  have hge2 : ¬ (100 * digitVal a + 10 * digitVal b + digitVal c < 10) := by omega
  rw [natChars_ge10 _ hge2]
  have hd2 : (100 * digitVal a + 10 * digitVal b + digitVal c) / 10 =
      10 * digitVal a + digitVal b := by omega
  have hm2 : (100 * digitVal a + 10 * digitVal b + digitVal c) % 10 = digitVal c := by omega
  rw [hd2, hm2, natChars_two _ _ (by omega) hva hvb]
  rw [digitChar_digitVal a ha, digitChar_digitVal b hb, digitChar_digitVal c hc,
    digitChar_digitVal e he]
  simp

/-- Any date returned by the strategy-2 loop passed the plausibility
filter. -/
theorem firstPlausible_plausible : ∀ (l : List (List Char)) (now : Now) (d : Date),
    firstPlausible l now = some d → plausibleNear d now = true := by
  intro l
  induction l with
  | nil =>
    intro now d h
    simp [firstPlausible] at h
  | cons tok rest ih =>
    intro now d h
    unfold firstPlausible at h
    cases hp : strptimeDMY tok with
    | none =>
      rw [hp] at h
      exact ih now d h
    | some d0 =>
      rw [hp] at h
      dsimp only at h
      by_cases hpl : plausibleNear d0 now = true
      · rw [if_pos hpl] at h
        injection h with h
        subst h
        exact hpl
      · rw [if_neg hpl] at h
        exact ih now d h

/-! ## Claims about the date extractor -/

/-- C1, counterexample: the claim says any well-formed date 31 days in the
future is discarded and extraction returns NotFound; but the code's
strategy-2 filter is the symmetric check `abs(days) < 60`, so on a page
whose only date is 31 days ahead of now the extractor returns that date,
not NotFound. -/
theorem C1_counterexample :
    extractDate ⟨none, "Cause List 12-11-2026"⟩ ⟨⟨2026, 10, 12⟩, 0⟩ =
      some ⟨2026, 11, 12⟩ ∧
    timedeltaDays ⟨2026, 11, 12⟩ ⟨⟨2026, 10, 12⟩, 0⟩ = 31 := by
  decide

/-- C1, amended: every date the extractor returns through the page-text
scan (the only path that filters at all — the header path returns with no
window check) lies within the symmetric window `abs(days) < 60` of now,
not within −60..+30. -/
theorem C1_scan_window (page : PageContent) (now : Now) (d : Date)
    (hh : page.headerText = none) (he : extractDate page now = some d) :
    (timedeltaDays d now).natAbs < 60 := by
  unfold extractDate at he
  rw [hh] at he
  unfold scanStrategy at he
  have hp := firstPlausible_plausible _ _ _ he
  unfold plausibleNear at hp
  exact of_decide_eq_true hp

/-- Witness for C1_scan_window at a concrete page and clock. -/
theorem C1_scan_window_witness :
    (⟨none, "PHC list 20-10-2026"⟩ : PageContent).headerText = none ∧
    extractDate ⟨none, "PHC list 20-10-2026"⟩ ⟨⟨2026, 10, 12⟩, 0⟩ =
      some ⟨2026, 10, 20⟩ ∧
    (timedeltaDays ⟨2026, 10, 20⟩ ⟨⟨2026, 10, 12⟩, 0⟩).natAbs < 60 :=
  ⟨rfl, by decide, C1_scan_window ⟨none, "PHC list 20-10-2026"⟩ ⟨⟨2026, 10, 12⟩, 0⟩
    ⟨2026, 10, 20⟩ rfl (by decide)⟩

/-- C8, counterexample: `strptime('%d-%m-%Y')` accepts the single-digit
form `5-3-2025`, but formatting the parsed date back with the same format
zero-pads, so the round trip is not the identity on that string. -/
theorem C8_counterexample :
    strptimeDMY "5-3-2025".data = some ⟨2025, 3, 5⟩ ∧
    strftimeDMY ⟨2025, 3, 5⟩ ≠ "5-3-2025" := by
  decide

/-- C8, amended: the parse-then-format round trip is the identity exactly
on the zero-padded accepted strings: if `strptime('%d-%m-%Y')` accepts a
10-character string (two-digit day and month) whose year is at least 1000,
then `strftime('%d-%m-%Y')` of the parsed date reproduces the string;
single-digit day or month components are re-formatted zero-padded and do
not round-trip. -/
theorem C8_round_trip_padded (cs : List Char) (d : Date)
    (h : strptimeDMY cs = some d) (hlen : cs.length = 10) (hy : 1000 ≤ d.year) :
    (strftimeDMY d).data = cs := by
  unfold strptimeDMY at h
  rcases hs : splitDash cs with _ | ⟨p1, _ | ⟨p2, _ | ⟨p3, _ | ⟨p4, ps⟩⟩⟩⟩ <;>
    rw [hs] at h <;> try simp at h
  obtain ⟨⟨⟨⟨⟨⟨hall1, hlen1⟩, hall2⟩, hlen2⟩, hall3⟩, hlen3⟩, hrange, hd⟩ := h
  have hcs := splitDash_three cs p1 p2 p3 hs
  have hlens : p1.length + p2.length + p3.length + 2 = 10 := by
    rw [hcs] at hlen
    simp at hlen
    omega
  have hp1 : p1.length = 2 := by omega
  have hp2 : p2.length = 2 := by omega
  obtain ⟨a1, b1, rfl⟩ := List.length_eq_two.mp hp1
  obtain ⟨a2, b2, rfl⟩ := List.length_eq_two.mp hp2
  rcases p3 with _ | ⟨a3, _ | ⟨b3, _ | ⟨c3, _ | ⟨e3, _ | ⟨x3, t3⟩⟩⟩⟩⟩ <;>
    simp only [List.length_cons, List.length_nil] at hlen3 <;>
    first
    | exact absurd hlen3 (by omega)
    | skip
  simp only [allDigits, List.all_cons, List.all_nil, Bool.and_eq_true,
    Bool.and_true] at hall1 hall2 hall3
  obtain ⟨ha1, hb1⟩ := hall1
  obtain ⟨ha2, hb2⟩ := hall2
  obtain ⟨ha3, hb3, hc3, he3⟩ := hall3
  subst hd
  have hy4 : 1000 ≤ digitsToNat [a3, b3, c3, e3] := hy
  have hlead : digitVal a3 ≠ 0 := by
    intro hz
    rw [digitsToNat_four] at hy4
    have := digitVal_lt b3 hb3
    have := digitVal_lt c3 hc3
    have := digitVal_lt e3 he3
    omega
  have hsf : (strftimeDMY ⟨digitsToNat [a3, b3, c3, e3], digitsToNat [a2, b2],
      digitsToNat [a1, b1]⟩).data =
      pad2 (digitsToNat [a1, b1]) ++ '-' ::
        (pad2 (digitsToNat [a2, b2]) ++ '-' :: natChars (digitsToNat [a3, b3, c3, e3])) := rfl
  rw [hsf, pad2_digits a1 b1 ha1 hb1, pad2_digits a2 b2 ha2 hb2,
    natChars_four a3 b3 c3 e3 ha3 hb3 hc3 he3 hlead, hcs]

/-- Witness for C8_round_trip_padded at a concrete accepted string. -/
theorem C8_round_trip_padded_witness :
    strptimeDMY "12-11-2026".data = some ⟨2026, 11, 12⟩ ∧
    ("12-11-2026".data).length = 10 ∧
    1000 ≤ (2026 : Nat) ∧
    (strftimeDMY ⟨2026, 11, 12⟩).data = "12-11-2026".data :=
  ⟨by decide, by decide, by decide,
    C8_round_trip_padded "12-11-2026".data ⟨2026, 11, 12⟩ (by decide) (by decide)
      (by decide)⟩

/-- C9: the scan regex explicitly matches slash-separated day-month-year
tokens, and a slash date 24 days ahead is well inside any window, but
`strptime` is called with the dash-only format `'%d-%m-%Y'`, so every
slash token raises `ValueError`, is skipped, and extraction returns
NotFound on a page whose only date uses slashes. -/
theorem C9_slash_never_parsed :
    scanDates "Cause List 05/11/2026".data = ["05/11/2026".data] ∧
    strptimeDMY "05/11/2026".data = none ∧
    extractDate ⟨none, "Cause List 05/11/2026"⟩ ⟨⟨2026, 10, 12⟩, 0⟩ = none ∧
    (timedeltaDays ⟨2026, 11, 5⟩ ⟨⟨2026, 10, 12⟩, 0⟩).natAbs < 60 := by
  decide

/-! ## Claims about the send cycle and the daily gate -/

/-- Shared concrete configuration for witnesses: all three required
environment variables present, one recipient. -/
def cfgOne : Config := ⟨some "pid", some "tok", some "111", Backend.official⟩

/-- Shared concrete channel oracle for witnesses: every send succeeds. -/
def chAllOk : Nat → String → String → Bool := fun _ _ _ => true

/-- C2: when the extracted cause-list date is not strictly after today,
`send_cause_list` makes zero delivery attempts, deletes the captured
screenshot at once, and returns `False`. -/
theorem C2_non_future_no_send (cfg : Config) (today d : Date)
    (ch : Nat → String → String → Bool)
    (hcfg : configOk cfg = true) (hle : Date.ble d today = true) :
    sendCauseList cfg today (some d) ch =
      Except.ok ⟨true, false, [], 0, 0, false⟩ := by
  have hm : (isMissingEnv cfg.phoneNumberId || isMissingEnv cfg.accessToken ||
      isMissingEnv cfg.recipientNumbersStr) = false := by
    unfold configOk at hcfg
    simpa using hcfg
  unfold sendCauseList
  rw [hm]
  simp [hle]

/-- Witness for C2_non_future_no_send at a concrete equal date. -/
theorem C2_non_future_no_send_witness :
    configOk cfgOne = true ∧
    Date.ble ⟨2026, 10, 12⟩ ⟨2026, 10, 12⟩ = true ∧
    sendCauseList cfgOne ⟨2026, 10, 12⟩ (some ⟨2026, 10, 12⟩) chAllOk =
      Except.ok ⟨true, false, [], 0, 0, false⟩ :=
  ⟨by decide, by decide,
    C2_non_future_no_send cfgOne ⟨2026, 10, 12⟩ ⟨2026, 10, 12⟩ chAllOk
      (by decide) (by decide)⟩

/-- The decimal rendering starts with a digit. -/
theorem natChars_head (n : Nat) :
    ∃ c cs, natChars n = c :: cs ∧ c.isDigit = true := by
  cases hq : natChars n with
  | nil => exact absurd hq (natChars_ne_nil n)
  | cons c cs =>
    refine ⟨c, cs, rfl, natChars_all_digit n c ?_⟩
    rw [hq]
    exact List.mem_cons_self c cs

/-- The zero-padded rendering ends with a digit. -/
theorem pad2_last (n : Nat) :
    ∃ cs c, pad2 n = cs ++ [c] ∧ c.isDigit = true := by
  by_cases h : n < 10
  · exact ⟨['0'], Nat.digitChar n, by simp [pad2, h], digitChar_isDigit n h⟩
  · rw [pad2, if_neg h, natChars_ge10 n h]
    exact ⟨natChars (n / 10), _, rfl, digitChar_isDigit _ (Nat.mod_lt _ (by omega))⟩

/-- The marker string written by `mark_message_sent` has no surrounding
whitespace, so reading it back through `.strip()` is the identity. -/
theorem pyStrip_fmtYMD (t : Date) : pyStrip (fmtYMD t) = fmtYMD t := by
  obtain ⟨c, cs, hc, hcd⟩ := natChars_head t.year
  obtain ⟨ps, pc, hp, hpd⟩ := pad2_last t.day
  have hwc : c.isWhitespace = false := isDigit_not_ws c hcd
  have hwp : pc.isWhitespace = false := isDigit_not_ws pc hpd
  unfold pyStrip fmtYMD
  show String.mk _ = String.mk _
  congr 1
  rw [hc, hp]
  rw [show (c :: cs) ++ '-' :: (pad2 t.month ++ '-' :: (ps ++ [pc])) =
    c :: ((cs ++ '-' :: (pad2 t.month ++ '-' :: ps)) ++ [pc]) by simp]
  rw [List.dropWhile_cons, if_neg (by simp [hwc])]
  rw [show (c :: ((cs ++ '-' :: (pad2 t.month ++ '-' :: ps)) ++ [pc])).reverse =
    pc :: ((cs ++ '-' :: (pad2 t.month ++ '-' :: ps)).reverse ++ [c]) by simp]
  rw [List.dropWhile_cons, if_neg (by simp [hwp])]
  simp

/-- Shows `was_message_sent_today` holds when the marker holds today's date
exactly as `mark_message_sent` writes it. -/
theorem was_sent_fmt (t : Date) :
    was_message_sent_today (some (fmtYMD t)) t = true := by
  unfold was_message_sent_today
  dsimp only
  rw [pyStrip_fmtYMD]
  simp

/-- A tick whose marker already names today skips the whole cycle. -/
theorem schedulerTick_already_sent (cfg : Config) (now : TickTime)
    (capture : Option Date) (ch : Nat → String → String → Bool)
    (st : SchedState) (hm : st.marker = some (fmtYMD now.today)) :
    schedulerTick cfg now capture ch st = (st, skipReport) := by
  unfold schedulerTick
  cases hw : is_within_time_window 20 0 23 30 now.hour now.minute
  · simp
  · rw [hm]
    simp [was_sent_fmt]

/-- C3: once the persisted marker equals today's date, any number of
further ticks of that calendar day leave the state untouched and each
tick reports a full skip: no capture, no delivery attempt, no marker
write. -/
theorem C3_no_second_send (cfg : Config) (t : Date) (inputs : List TickInput)
    (st : SchedState) (hm : st.marker = some (fmtYMD t))
    (ht : ∀ inp ∈ inputs, inp.time.today = t) :
    (runTicks cfg inputs st).1 = st ∧
    ∀ r ∈ (runTicks cfg inputs st).2, r = skipReport := by
  induction inputs with
  | nil => simp [runTicks]
  | cons inp rest ih =>
    have hinp : inp.time.today = t := ht inp (List.mem_cons_self inp rest)
    have htick : schedulerTick cfg inp.time inp.capture inp.ch st = (st, skipReport) :=
      schedulerTick_already_sent cfg inp.time inp.capture inp.ch st (by rw [hm, hinp])
    have ihr := ih (fun i hi => ht i (List.mem_cons_of_mem inp hi))
    unfold runTicks
    rw [htick]
    refine ⟨ihr.1, ?_⟩
    intro r hr
    rcases hr with _ | hr
    · rfl
    · exact ihr.2 r (by assumption)

/-- Witness for C3_no_second_send: two concrete in-window ticks after a
send already recorded for the day. -/
theorem C3_no_second_send_witness :
    (⟨some "2026-10-12"⟩ : SchedState).marker = some (fmtYMD ⟨2026, 10, 12⟩) ∧
    (runTicks cfgOne
      [⟨⟨⟨2026, 10, 12⟩, 20, 10⟩, some ⟨2026, 10, 13⟩, chAllOk⟩,
       ⟨⟨⟨2026, 10, 12⟩, 21, 0⟩, some ⟨2026, 10, 13⟩, chAllOk⟩]
      ⟨some "2026-10-12"⟩).1 = ⟨some "2026-10-12"⟩ ∧
    ∀ r ∈ (runTicks cfgOne
      [⟨⟨⟨2026, 10, 12⟩, 20, 10⟩, some ⟨2026, 10, 13⟩, chAllOk⟩,
       ⟨⟨⟨2026, 10, 12⟩, 21, 0⟩, some ⟨2026, 10, 13⟩, chAllOk⟩]
      ⟨some "2026-10-12"⟩).2, r = skipReport :=
  have h := C3_no_second_send cfgOne ⟨2026, 10, 12⟩
    [⟨⟨⟨2026, 10, 12⟩, 20, 10⟩, some ⟨2026, 10, 13⟩, chAllOk⟩,
     ⟨⟨⟨2026, 10, 12⟩, 21, 0⟩, some ⟨2026, 10, 13⟩, chAllOk⟩]
    ⟨some "2026-10-12"⟩ (by decide)
    (by
      intro inp hi
      rw [List.mem_cons] at hi
      rcases hi with rfl | hi
      · rfl
      · rw [List.mem_cons] at hi
        rcases hi with rfl | hi
        · rfl
        · simp at hi)
  ⟨by decide, h.1, h.2⟩

/-- Case analysis of one scheduler tick: either the persisted state is
untouched, or the cycle returned `True` and the marker was rewritten to
today. -/
theorem schedulerTick_cases (cfg : Config) (now : TickTime)
    (capture : Option Date) (ch : Nat → String → String → Bool)
    (st : SchedState) :
    (schedulerTick cfg now capture ch st).1 = st ∨
    (∃ o, sendCauseList cfg now.today capture ch = Except.ok o ∧ o.sent = true ∧
      schedulerTick cfg now capture ch st =
        (⟨some (fmtYMD now.today)⟩,
          ⟨true, true, o.attempts, o.succCount, o.failCount, true, false⟩)) := by
  unfold schedulerTick
  cases hw : is_within_time_window 20 0 23 30 now.hour now.minute with
  | false => left; simp
  | true =>
    cases hsent : was_message_sent_today st.marker now.today with
    | true => left; simp
    | false =>
      cases hsc : sendCauseList cfg now.today capture ch with
      | error e => left; simp
      | ok o =>
        cases ho : o.sent with
        | false => left; simp [ho]
        | true =>
          right
          exact ⟨o, rfl, ho, by simp [ho]⟩

/-- A dispatch pass that set `sent = True` had a strictly-future date and
at least one successful send. -/
theorem sendCauseList_ok_sent (cfg : Config) (today : Date)
    (capture : Option Date) (ch : Nat → String → String → Bool)
    (o : CycleOutcome) (h : sendCauseList cfg today capture ch = Except.ok o)
    (hs : o.sent = true) :
    ∃ d, capture = some d ∧ Date.ble d today = false ∧ 0 < o.succCount := by
  unfold sendCauseList at h
  by_cases hm : (isMissingEnv cfg.phoneNumberId || isMissingEnv cfg.accessToken ||
      isMissingEnv cfg.recipientNumbersStr) = true
  · rw [if_pos hm] at h
    exact absurd h (by simp)
  · rw [if_neg hm] at h
    cases capture with
    | none =>
      dsimp only at h
      injection h with h
      rw [← h] at hs
      simp at hs
    | some d =>
      dsimp only at h
      by_cases hb : Date.ble d today = true
      · rw [if_pos hb] at h
        injection h with h
        rw [← h] at hs
        simp at hs
      · rw [if_neg hb] at h
        refine ⟨d, rfl, by simpa using hb, ?_⟩
        injection h with h
        rw [← h] at hs ⊢
        simpa using hs

/-- C4: the sent marker changes only when the cycle's dispatch pass
reported at least one successful send to a strictly-future cause-list
date; a NotFound capture, a rejected date, or a zero-success dispatch
leaves the marker exactly as it was. -/
theorem C4_marker_only_after_success (cfg : Config) (now : TickTime)
    (capture : Option Date) (ch : Nat → String → String → Bool)
    (st : SchedState)
    (hne : (schedulerTick cfg now capture ch st).1.marker ≠ st.marker) :
    ∃ d, capture = some d ∧ Date.ble d now.today = false ∧
      0 < (schedulerTick cfg now capture ch st).2.succCount := by
  rcases schedulerTick_cases cfg now capture ch st with he | ⟨o, hsc, hsent, htick⟩
  · exact absurd (by rw [he]) hne
  · obtain ⟨d, hcap, hble, hsucc⟩ := sendCauseList_ok_sent _ _ _ _ _ hsc hsent
    refine ⟨d, hcap, hble, ?_⟩
    rw [htick]
    exact hsucc

/-- Witness for C4_marker_only_after_success: a concrete in-window tick
with no prior marker, a tomorrow date, and an all-success channel. -/
theorem C4_marker_only_after_success_witness :
    ∃ d, (some ⟨2026, 10, 13⟩ : Option Date) = some d ∧
      Date.ble d ⟨2026, 10, 12⟩ = false ∧
      0 < (schedulerTick cfgOne ⟨⟨2026, 10, 12⟩, 20, 30⟩ (some ⟨2026, 10, 13⟩)
        chAllOk ⟨none⟩).2.succCount :=
  C4_marker_only_after_success cfgOne ⟨⟨2026, 10, 12⟩, 20, 30⟩
    (some ⟨2026, 10, 13⟩) chAllOk ⟨none⟩ (by decide)

/-- C5, counterexample: a single-shot run whose dispatch succeeds
(`sent = true`) still leaves the marker file untouched (`none`), which is
not today's date — `main --once` never calls `mark_message_sent`. -/
theorem C5_counterexample :
    (singleShotRun cfgOne ⟨2026, 10, 12⟩ (some ⟨2026, 10, 13⟩) chAllOk
        ⟨none⟩).toOption.map (fun p => (p.1.marker, p.2.sent)) =
      some (none, true) ∧
    (none : Option String) ≠ some (fmtYMD ⟨2026, 10, 12⟩) := by
  decide

/-- C5, amended: single-shot mode runs exactly one cycle regardless of
the time window (the run is the cycle itself, with no window or marker
check), but it never persists the sent marker: whatever the cycle
reports — even a fully successful dispatch — the state after the run is
the state before it. -/
theorem C5_single_shot_no_marker (cfg : Config) (today : Date)
    (capture : Option Date) (ch : Nat → String → String → Bool)
    (st st' : SchedState) (o : CycleOutcome)
    (h : singleShotRun cfg today capture ch st = Except.ok (st', o)) :
    st' = st ∧ sendCauseList cfg today capture ch = Except.ok o := by
  unfold singleShotRun at h
  cases hsc : sendCauseList cfg today capture ch with
  | error e =>
    rw [hsc] at h
    simp at h
  | ok o2 =>
    rw [hsc] at h
    dsimp only at h
    injection h with h
    injection h with h1 h2
    exact ⟨h1.symm, by rw [h2]⟩

/-- Witness for C5_single_shot_no_marker at a concrete successful run. -/
theorem C5_single_shot_no_marker_witness :
    (⟨none⟩ : SchedState) = ⟨none⟩ ∧
    sendCauseList cfgOne ⟨2026, 10, 12⟩ (some ⟨2026, 10, 13⟩) chAllOk =
      Except.ok ⟨true, false,
        [(1, "111", "Patna High Court Cause List\n13-10-2026", true)], 1, 0, true⟩ :=
  C5_single_shot_no_marker cfgOne ⟨2026, 10, 12⟩ (some ⟨2026, 10, 13⟩) chAllOk
    ⟨none⟩ ⟨none⟩
    ⟨true, false, [(1, "111", "Patna High Court Cause List\n13-10-2026", true)], 1, 0, true⟩
    (by rfl)

/-- Shared concrete configuration with a required variable missing. -/
def cfgMissing : Config := ⟨none, some "tok", some "111", Backend.official⟩

/-- C6, counterexample: with a required environment variable missing, the
scheduler loop does proceed — two consecutive in-window ticks each run the
cycle, catch the `ValueError` in the per-cycle guard, report it as an
errored tick, and keep going with the state unchanged; the configuration
error never stops scheduling. -/
theorem C6_counterexample :
    runTicks cfgMissing
      [⟨⟨⟨2026, 10, 12⟩, 20, 10⟩, some ⟨2026, 10, 13⟩, chAllOk⟩,
       ⟨⟨⟨2026, 10, 12⟩, 20, 20⟩, some ⟨2026, 10, 13⟩, chAllOk⟩] ⟨none⟩ =
      (⟨none⟩, [⟨true, false, [], 0, 0, false, true⟩,
                ⟨true, false, [], 0, 0, false, true⟩]) := by
  decide

/-- With a required variable missing, every cycle raises before any
capture. -/
theorem sendCauseList_missing_env (cfg : Config) (hmiss : configOk cfg = false) :
    ∀ (today : Date) (capture : Option Date) (ch : Nat → String → String → Bool),
    sendCauseList cfg today capture ch = Except.error
      "[ERROR] Missing required environment variables. Please check your .env file." := by
  intro today capture ch
  have hm : (isMissingEnv cfg.phoneNumberId || isMissingEnv cfg.accessToken ||
      isMissingEnv cfg.recipientNumbersStr) = true := by
    unfold configOk at hmiss
    cases hb : (isMissingEnv cfg.phoneNumberId || isMissingEnv cfg.accessToken ||
        isMissingEnv cfg.recipientNumbersStr)
    · rw [hb] at hmiss
      simp at hmiss
    · rfl
  unfold sendCauseList
  rw [hm]
  simp

/-- C6, amended: the missing-configuration `ValueError` is raised inside
the cycle, not at startup.  In single-shot mode it propagates and aborts
the run before any capture; in scheduler mode the per-tick guard catches
it, the tick is reported as errored with nothing captured, nothing sent
and no marker write, and the loop keeps ticking. -/
theorem C6_config_error_caught (cfg : Config) (today : Date)
    (capture : Option Date) (ch : Nat → String → String → Bool)
    (st : SchedState) (now : TickTime) (capture2 : Option Date)
    (ch2 : Nat → String → String → Bool)
    (hmiss : configOk cfg = false)
    (hwin : is_within_time_window 20 0 23 30 now.hour now.minute = true)
    (hnot : was_message_sent_today st.marker now.today = false) :
    singleShotRun cfg today capture ch st = Except.error
      "[ERROR] Missing required environment variables. Please check your .env file." ∧
    schedulerTick cfg now capture2 ch2 st =
      (st, ⟨true, false, [], 0, 0, false, true⟩) := by
  constructor
  · unfold singleShotRun
    rw [sendCauseList_missing_env cfg hmiss today capture ch]
  · unfold schedulerTick
    rw [hwin, hnot]
    rw [sendCauseList_missing_env cfg hmiss now.today capture2 ch2]
    simp

/-- Witness for C6_config_error_caught at a concrete in-window tick. -/
theorem C6_config_error_caught_witness :
    configOk cfgMissing = false ∧
    is_within_time_window 20 0 23 30 20 30 = true ∧
    was_message_sent_today (⟨none⟩ : SchedState).marker ⟨2026, 10, 12⟩ = false ∧
    singleShotRun cfgMissing ⟨2026, 10, 12⟩ (some ⟨2026, 10, 13⟩) chAllOk ⟨none⟩ =
      Except.error
        "[ERROR] Missing required environment variables. Please check your .env file." ∧
    schedulerTick cfgMissing ⟨⟨2026, 10, 12⟩, 20, 30⟩ (some ⟨2026, 10, 13⟩) chAllOk
      ⟨none⟩ = (⟨none⟩, ⟨true, false, [], 0, 0, false, true⟩) :=
  have h := C6_config_error_caught cfgMissing ⟨2026, 10, 12⟩ (some ⟨2026, 10, 13⟩)
    chAllOk ⟨none⟩ ⟨⟨2026, 10, 12⟩, 20, 30⟩ (some ⟨2026, 10, 13⟩) chAllOk
    (by decide) (by decide) (by decide)
  ⟨by decide, by decide, by decide, h.1, h.2⟩

/-! ## Claims about bulk dispatch -/

/-- The Cloud-API loop attempts exactly the given recipients, in order. -/
theorem managerSendLoop_recipients (ch : Nat → String → String → Bool)
    (caption : String) :
    ∀ (rs : List String) (idx : Nat),
    (managerSendLoop ch caption idx rs).map (fun e => e.2.1) = rs := by
  intro rs
  induction rs with
  | nil => intro idx; rfl
  | cons r rest ih =>
    intro idx
    simp only [managerSendLoop, List.map_cons, ih]

/-- The web loop attempts exactly the given recipients, in order. -/
theorem webSendLoop_recipients (ch : Nat → String → String → Bool)
    (caption : String) :
    ∀ (rs : List String) (idx : Nat),
    (webSendLoop ch caption idx rs).map (fun e => e.2.1) = rs := by
  intro rs
  induction rs with
  | nil => intro idx; rfl
  | cons r rest ih =>
    intro idx
    simp only [webSendLoop, List.map_cons, ih]

/-- Success and failure tallies always add up to the number of attempts. -/
theorem tallyTrace_total (tr : List SendEntry) :
    (tallyTrace tr).1 + (tallyTrace tr).2 = tr.length := by
  induction tr with
  | nil => rfl
  | cons e rest ih =>
    unfold tallyTrace at ih ⊢
    cases he : e.2.2.2 <;> simp [List.countP_cons, he] <;> omega

/-- C7: both bulk dispatchers attempt every recipient in order (no abort
on an individual failure) and return exact aggregate counts; in the
3-recipient scenario where the second channel call fails, the result is
`(successCount, failCount) = (2, 1)` and the third recipient is still
attempted. -/
theorem C7_bulk_dispatch (ch : Nat → String → String → Bool)
    (caption : String) (rs : List String) (a b c : String)
    (ch3 : Nat → String → String → Bool)
    (h1 : ch3 1 a caption = true) (h2 : ch3 2 b caption = false)
    (h3 : ch3 3 c caption = true) :
    ((managerSendToMultiple ch caption rs).1.map (fun e => e.2.1) = rs) ∧
    ((webSendToMultiple ch caption rs).1.map (fun e => e.2.1) = rs) ∧
    ((managerSendToMultiple ch caption rs).2.1 +
      (managerSendToMultiple ch caption rs).2.2 = rs.length) ∧
    ((managerSendToMultiple ch3 caption [a, b, c]).2 = (2, 1)) ∧
    ((managerSendToMultiple ch3 caption [a, b, c]).1.map (fun e => (e.1, e.2.1)) =
      [(1, a), (2, b), (3, c)]) := by
  refine ⟨managerSendLoop_recipients ch caption rs 1,
    webSendLoop_recipients ch caption rs 1, ?_, ?_, ?_⟩
  · have := tallyTrace_total (managerSendLoop ch caption 1 rs)
    unfold managerSendToMultiple
    dsimp only
    rw [this]
    have hm := managerSendLoop_recipients ch caption rs 1
    calc (managerSendLoop ch caption 1 rs).length
        = ((managerSendLoop ch caption 1 rs).map (fun e => e.2.1)).length := by
          rw [List.length_map]
      _ = rs.length := by rw [hm]
  · simp [managerSendToMultiple, managerSendLoop, tallyTrace, List.countP_cons,
      h1, h2, h3]
  · simp [managerSendToMultiple, managerSendLoop]

/-- Witness for C7_bulk_dispatch at a concrete 3-recipient batch whose
second send fails. -/
theorem C7_bulk_dispatch_witness :
    ((fun i (_r _cap : String) => !(i == 2) : Nat → String → String → Bool)
        1 "a1" "cap" = true) ∧
    ((fun i (_r _cap : String) => !(i == 2) : Nat → String → String → Bool)
        2 "b2" "cap" = false) ∧
    ((managerSendToMultiple (fun i _ _ => !(i == 2)) "cap" ["a1", "b2", "c3"]).2 =
      (2, 1)) ∧
    ((managerSendToMultiple (fun i _ _ => !(i == 2)) "cap"
        ["a1", "b2", "c3"]).1.map (fun e => (e.1, e.2.1)) =
      [(1, "a1"), (2, "b2"), (3, "c3")]) :=
  have h := C7_bulk_dispatch (fun i _ _ => !(i == 2)) "cap" [] "a1" "b2" "c3"
    (fun i _ _ => !(i == 2)) (by decide) (by decide) (by decide)
  ⟨by decide, by decide, h.2.2.2.1, h.2.2.2.2⟩

/-! ## Claim about the web batch debug caption -/

/-- Every entry of the web batch delivers the debug caption of its own
1-based index. -/
theorem webSendLoop_caption (ch : Nat → String → String → Bool)
    (caption : String) :
    ∀ (rs : List String) (idx : Nat) (e : SendEntry),
    e ∈ webSendLoop ch caption idx rs → e.2.2.1 = debugCaption caption e.1 := by
  intro rs
  induction rs with
  | nil =>
    intro idx e he
    simp [webSendLoop] at he
  | cons r rest ih =>
    intro idx e he
    rw [webSendLoop, List.mem_cons] at he
    rcases he with rfl | he
    · rfl
    · exact ih (idx + 1) e he

/-- The delivered caption is strictly longer than the caller's caption,
hence never equal to it. -/
theorem debugCaption_ne (caption : String) (idx : Nat) :
    debugCaption caption idx ≠ caption := by
  intro h
  have hd := congrArg (fun s => s.data.length) h
  unfold debugCaption natStr at hd
  simp only [String.data_append, List.length_append] at hd
  have hpos : 0 < (natChars idx).length := by
    cases hq : natChars idx with
    | nil => exact absurd hq (natChars_ne_nil idx)
    | cons c cs => simp
  simp only [List.length_cons, List.length_nil] at hd
  omega

/-- Distinct recipient positions receive distinct delivered captions. -/
theorem debugCaption_inj (caption : String) (i j : Nat) (hne : i ≠ j) :
    debugCaption caption i ≠ debugCaption caption j := by
  intro h
  apply hne
  have hd := congrArg String.data h
  unfold debugCaption natStr at hd
  simp only [String.data_append] at hd
  simp only [List.append_assoc] at hd
  have hd2 := (List.append_inj hd rfl).2
  have hd3 := (List.append_inj hd2 rfl).2
  have hlen : (natChars i).length = (natChars j).length := by
    have hl := congrArg List.length hd3
    simp only [List.length_append] at hl
    omega
  exact natChars_inj i j (List.append_inj hd3 hlen).1

/-- C10: in the web batch path the caption actually delivered at 1-based
position `idx` is the caller's caption with `"\n[Debug #idx]"` appended;
it never equals the caption passed in, and any two distinct positions
receive distinct delivered captions. -/
theorem C10_debug_caption (ch : Nat → String → String → Bool)
    (caption : String) (rs : List String) (e : SendEntry)
    (he : e ∈ (webSendToMultiple ch caption rs).1) :
    e.2.2.1 = debugCaption caption e.1 ∧
    e.2.2.1 ≠ caption ∧
    ∀ i j : Nat, i ≠ j → debugCaption caption i ≠ debugCaption caption j := by
  have h1 : e.2.2.1 = debugCaption caption e.1 :=
    webSendLoop_caption ch caption rs 1 e he
  refine ⟨h1, ?_, fun i j => debugCaption_inj caption i j⟩
  rw [h1]
  exact debugCaption_ne caption e.1

/-- Witness for C10_debug_caption at a concrete one-recipient batch. -/
theorem C10_debug_caption_witness :
    ((1, "111", "Hi\n[Debug #1]", true) : SendEntry).2.2.1 = debugCaption "Hi" 1 ∧
    ((1, "111", "Hi\n[Debug #1]", true) : SendEntry).2.2.1 ≠ "Hi" ∧
    debugCaption "Hi" 1 ≠ debugCaption "Hi" 2 :=
  have h := C10_debug_caption chAllOk "Hi" ["111"] (1, "111", "Hi\n[Debug #1]", true)
    (by decide)
  ⟨h.1, h.2.1, h.2.2 1 2 (by decide)⟩
